import Mathlib

/-!
Shallow embedding of the course-catalog HTTP service (`server.js`).

The service keeps two database collections (`Course`, `File`) and a local
object store (`uploads/` directory).  Each route handler is modelled as a
pure function from a `State` (database collections + filesystem) and the
request data to a new `State` paired with a `Resp` (HTTP status + JSON
message).  The JavaScript `try { ... } catch` wrapper is modelled by the
handler returning the 500 response at the point a filesystem operation
throws, keeping all state mutations performed before the throw.

Modelling conventions:
  * Mongo string-field queries (`findOne {name}`, `find {course}`) are
    byte-exact string comparisons, as in MongoDB.
  * Record ids (`ObjectId`) are `Nat`; the generator is a counter in the
    state.
  * JavaScript falsy checks on request-body strings (`!name`) hold for a
    missing field and for the empty string.
  * The filesystem is the set of keys present in the upload directory plus
    the set of keys for which `fs.unlinkSync` throws (permissions etc.);
    `fs.existsSync` is membership in the present set.
  * `Date.now()` is a `Nat` parameter of the upload handler; JavaScript
    number-to-string coercion of an integer is decimal notation
    (`natChars`).
-/

/-- A `Course` document: `{ name: String }` plus its generated id. -/
structure Course where
  id : Nat
  name : String
deriving DecidableEq, Repr

/-- A `File` document: `{ title, url, course }` plus its generated id. -/
structure FileRec where
  id : Nat
  title : String
  url : String
  course : String
deriving DecidableEq, Repr

/-- The local object store: keys present in the `uploads/` directory, and
keys whose `fs.unlinkSync` throws (e.g. permission errors). -/
structure FS where
  present : List String
  failing : List String
deriving DecidableEq, Repr

/-- Whole service state: the two database collections, the filesystem, and
the id generator. -/
structure State where
  courses : List Course
  files : List FileRec
  fs : FS
  nextId : Nat
deriving DecidableEq, Repr

/-- An HTTP response: status code and the JSON `message` payload. -/
structure Resp where
  status : Nat
  message : String
deriving DecidableEq, Repr

/-- JavaScript falsy test for an optional request-body string field
(`!name` is true when the field is absent or the empty string). -/
def strFalsy : Option String → Bool
  | none => true
  | some s => s == ""

/-- `fs.existsSync` on a stored key. -/
def existsSync (fs : FS) (key : String) : Bool :=
  fs.present.contains key

/-- `fs.unlinkSync`: removes the object, or throws (`.error`) when the key
is in the failing set. -/
def unlinkSync (fs : FS) (key : String) : Except Unit FS :=
  if fs.failing.contains key then .error ()
  else .ok { fs with present := fs.present.erase key }

/-- Writing an uploaded object under `key` (multer disk storage): creates
the key if absent, overwrites the content (key set unchanged) if present. -/
def writeObject (fs : FS) (key : String) : FS :=
  if fs.present.contains key then fs else { fs with present := key :: fs.present }

/-- Membership test used by JavaScript `\s`: the whitespace characters the
regex `/\s+/g` in the multer filename callback matches. -/
def isJsSpace (c : Char) : Bool :=
  c = ' ' || c = '\t' || c = '\n' || c.val = 11 || c.val = 12 || c = '\r' ||
  c.val = 0xa0 || c.val = 0x1680 || (0x2000 ≤ c.val && c.val ≤ 0x200a) ||
  c.val = 0x2028 || c.val = 0x2029 || c.val = 0x202f || c.val = 0x205f ||
  c.val = 0x3000 || c.val = 0xfeff

/-- `originalname.replace(/\s+/g, '_')` on the character list: every
maximal run of whitespace becomes a single underscore.  The flag records
whether the previous character was inside a whitespace run. -/
def squashAux : Bool → List Char → List Char
  | _, [] => []
  | inWS, c :: cs =>
    if isJsSpace c then
      if inWS then squashAux true cs else '_' :: squashAux true cs
    else c :: squashAux false cs

/-- `s.replace(/\s+/g, '_')` as a `String` function. -/
def jsSquashWS (s : String) : String :=
  ⟨squashAux false s.data⟩

/-- Decimal digit characters of a natural number, most significant first:
JavaScript's number-to-string coercion for the integer `Date.now()`. -/
def natChars (n : Nat) : List Char :=
  if _h : n < 10 then [Nat.digitChar n]
  else natChars (n / 10) ++ [Nat.digitChar (n % 10)]
decreasing_by
  exact Nat.div_lt_self (by omega) (by omega)

/-- JavaScript decimal string of a natural number. -/
def decimalString (n : Nat) : String :=
  ⟨natChars n⟩

/-- The multer `filename` callback:
`Date.now() + '-' + file.originalname.replace(/\s+/g, '_')`. -/
def multerFilename (now : Nat) (originalname : String) : String :=
  decimalString now ++ "-" ++ jsSquashWS originalname

/-- JavaScript `s.startsWith(p)`: `p`'s characters are an initial segment of
`s`'s (computable counterpart of `String.startsWith`). -/
def strStartsWith (s p : String) : Bool :=
  p.data.isPrefixOf s.data

/-- `GET /files/:course` query: `File.find({ course: courseName })` where
`courseName` is the URL-decoded path parameter. -/
def listFiles (courseName : String) (files : List FileRec) : List FileRec :=
  files.filter (fun f => f.course == courseName)

/-- `POST /admin/add-course`. -/
def addCourse (st : State) (name? : Option String) : State × Resp :=
  if strFalsy name? then (st, ⟨400, "Course name is required"⟩)
  else
    let name := name?.getD ""
    match st.courses.find? (fun c => c.name == name) with
    | some _ => (st, ⟨400, "Course already exists"⟩)
    | none =>
      ({ st with courses := st.courses ++ [⟨st.nextId, name⟩],
                 nextId := st.nextId + 1 },
       ⟨200, "Course added successfully"⟩)

/-- Auto-creation step shared by `add-file` and `upload-file`:
`let c = await Course.findOne({name: course}); if (!c) await Course.create(...)`. -/
def ensureCourse (st : State) (course : String) : State :=
  match st.courses.find? (fun c => c.name == course) with
  | some _ => st
  | none =>
    { st with courses := st.courses ++ [⟨st.nextId, course⟩],
              nextId := st.nextId + 1 }

/-- `POST /admin/add-file`. -/
def addFile (st : State) (title? url? course? : Option String) : State × Resp :=
  if strFalsy title? || strFalsy url? || strFalsy course? then
    (st, ⟨400, "Missing fields"⟩)
  else
    let title := title?.getD ""
    let url := url?.getD ""
    let course := course?.getD ""
    let st1 := ensureCourse st course
    ({ st1 with files := st1.files ++ [⟨st1.nextId, title, url, course⟩],
                nextId := st1.nextId + 1 },
     ⟨200, "File added successfully"⟩)

/-- `POST /admin/upload-file`.  The `upload.single('file')` middleware runs
before the handler body: when a payload is present, multer writes it under
`uploads/<multerFilename>` first; field validation happens only afterwards.
`payload?` carries the original filename of the uploaded binary. -/
def uploadFile (st : State) (now : Nat) (title? course? : Option String)
    (payload? : Option String) : State × Resp :=
  match payload? with
  | none => (st, ⟨400, "Missing fields or file"⟩)
  | some originalname =>
    let key := "uploads/" ++ multerFilename now originalname
    let st := { st with fs := writeObject st.fs key }
    if strFalsy title? || strFalsy course? then
      (st, ⟨400, "Missing fields or file"⟩)
    else
      let title := title?.getD ""
      let course := course?.getD ""
      let st1 := ensureCourse st course
      ({ st1 with files := st1.files ++ [⟨st1.nextId, title, key, course⟩],
                  nextId := st1.nextId + 1 },
       ⟨200, "File uploaded successfully"⟩)

/-- `DELETE /admin/delete-file/:id`.  A throwing `unlinkSync` propagates to
the route's `catch` block, which logs and answers 500; the record deletion
after the unlink is then never executed. -/
def deleteFile (st : State) (id : Nat) : State × Resp :=
  match st.files.find? (fun f => f.id == id) with
  | none => (st, ⟨404, "File not found"⟩)
  | some file =>
    if strStartsWith file.url "uploads/" then
      if existsSync st.fs file.url then
        match unlinkSync st.fs file.url with
        | .error _ => (st, ⟨500, "Error deleting file"⟩)
        | .ok fs' =>
          ({ st with fs := fs', files := st.files.filter (fun f => f.id != id) },
           ⟨200, "File deleted successfully"⟩)
      else
        ({ st with files := st.files.filter (fun f => f.id != id) },
         ⟨200, "File deleted successfully"⟩)
    else
      ({ st with files := st.files.filter (fun f => f.id != id) },
       ⟨200, "File deleted successfully"⟩)

/-- The `for (const file of files)` loop of `DELETE /admin/delete-course/:id`:
iterates over the snapshot `todo` of matching files, unlinks local objects
and deletes each record; a throwing unlink stops the loop (`false`), keeping
the state reached so far. -/
def deleteFilesLoop (fs : FS) (files : List FileRec) :
    List FileRec → FS × List FileRec × Bool
  | [] => (fs, files, true)
  | f :: rest =>
    if strStartsWith f.url "uploads/" then
      if existsSync fs f.url then
        match unlinkSync fs f.url with
        | .error _ => (fs, files, false)
        | .ok fs' => deleteFilesLoop fs' (files.filter (fun g => g.id != f.id)) rest
      else deleteFilesLoop fs (files.filter (fun g => g.id != f.id)) rest
    else deleteFilesLoop fs (files.filter (fun g => g.id != f.id)) rest

/-- `DELETE /admin/delete-course/:id`. -/
def deleteCourse (st : State) (id : Nat) : State × Resp :=
  match st.courses.find? (fun c => c.id == id) with
  | none => (st, ⟨404, "Course not found"⟩)
  | some course =>
    let found := st.files.filter (fun f => f.course == course.name)
    match deleteFilesLoop st.fs st.files found with
    | (fs', files', true) =>
      ({ st with fs := fs', files := files',
                 courses := st.courses.filter (fun c => c.id != id) },
       ⟨200, "Course and its files deleted successfully"⟩)
    | (fs', files', false) =>
      ({ st with fs := fs', files := files' }, ⟨500, "Error deleting course"⟩)

/-! ### Helper lemmas -/

theorem writeObject_mem (fs : FS) (key : String) :
    key ∈ (writeObject fs key).present := by
  unfold writeObject
  split
  · next h => simpa using h
  · exact List.mem_cons_self _ _

theorem ensureCourse_files (st : State) (course : String) :
    (ensureCourse st course).files = st.files := by
  unfold ensureCourse
  split <;> rfl

theorem ensureCourse_fs (st : State) (course : String) :
    (ensureCourse st course).fs = st.fs := by
  unfold ensureCourse
  split <;> rfl

theorem ensureCourse_mem (st : State) (course : String) :
    ∃ c ∈ (ensureCourse st course).courses, c.name = course := by
  unfold ensureCourse
  cases hfind : st.courses.find? (fun c => c.name == course) with
  | some c =>
    exact ⟨c, List.mem_of_find?_eq_some hfind, by simpa using List.find?_some hfind⟩
  | none => exact ⟨⟨st.nextId, course⟩, by simp, rfl⟩

/-! ### Claim theorems -/

/-- C5: `GET /files/:course` returns exactly the File records whose `course`
field is byte-equal to the URL-decoded query value; a course name matching no
record yields the empty list rather than an error. -/
theorem listFiles_exact_match (q : String) (files : List FileRec) :
    (∀ f, f ∈ listFiles q files ↔ f ∈ files ∧ f.course = q) ∧
    ((∀ f ∈ files, f.course ≠ q) → listFiles q files = []) := by
  constructor
  · intro f
    simp [listFiles, List.mem_filter]
  · intro h
    simp only [listFiles, List.filter_eq_nil_iff]
    intro f hf
    simpa using h f hf

theorem listFiles_exact_match_witness :
    (∀ f, f ∈ listFiles "Math" [⟨1, "A", "u1", "Math"⟩, ⟨2, "B", "u2", "CS"⟩] ↔
        f ∈ [FileRec.mk 1 "A" "u1" "Math", FileRec.mk 2 "B" "u2" "CS"] ∧ f.course = "Math") ∧
    ((∀ f ∈ [FileRec.mk 1 "A" "u1" "Math", FileRec.mk 2 "B" "u2" "CS"], f.course ≠ "Math") →
      listFiles "Math" [⟨1, "A", "u1", "Math"⟩, ⟨2, "B", "u2", "CS"⟩] = []) :=
  listFiles_exact_match "Math" _

/-- C3: when a Course with the requested (non-empty) name already exists,
`POST /admin/add-course` answers 400 "Course already exists" and leaves the
whole state — in particular the Course collection — unchanged. -/
theorem addCourse_duplicate_rejected (st : State) (name : String)
    (hne : name ≠ "") (c : Course) (hc : c ∈ st.courses) (hcn : c.name = name) :
    addCourse st (some name) = (st, ⟨400, "Course already exists"⟩) := by
  have hfalsy : strFalsy (some name) = false := by simp [strFalsy, hne]
  cases hfind : st.courses.find? (fun c => c.name == name) with
  | none =>
    have := List.find?_eq_none.1 hfind c hc
    simp [hcn] at this
  | some c' => simp [addCourse, hfalsy, hfind]

theorem addCourse_duplicate_rejected_witness :
    addCourse ⟨[⟨1, "Math"⟩], [], ⟨[], []⟩, 2⟩ (some "Math") =
      (⟨[⟨1, "Math"⟩], [], ⟨[], []⟩, 2⟩, ⟨400, "Course already exists"⟩) :=
  addCourse_duplicate_rejected _ _ (by decide) ⟨1, "Math"⟩ (by simp) rfl

/-- C8: deleting a File whose local-prefixed url names an object absent from
the upload directory skips the removal, still deletes the record, and answers
the success confirmation. -/
theorem deleteFile_missing_object_ok (st : State) (id : Nat) (file : FileRec)
    (hfind : st.files.find? (fun f => f.id == id) = some file)
    (hpre : strStartsWith file.url "uploads/" = true)
    (habs : existsSync st.fs file.url = false) :
    deleteFile st id =
      ({ st with files := st.files.filter (fun f => f.id != id) },
       ⟨200, "File deleted successfully"⟩) := by
  simp [deleteFile, hfind, hpre, habs]

theorem deleteFile_missing_object_ok_witness :
    deleteFile ⟨[], [⟨1, "A", "uploads/gone.pdf", "Math"⟩], ⟨[], []⟩, 2⟩ 1 =
      (⟨[], [], ⟨[], []⟩, 2⟩, ⟨200, "File deleted successfully"⟩) :=
  (deleteFile_missing_object_ok ⟨[], [⟨1, "A", "uploads/gone.pdf", "Math"⟩], ⟨[], []⟩, 2⟩ 1
    ⟨1, "A", "uploads/gone.pdf", "Math"⟩ rfl rfl rfl).trans (by rfl)

/-- C7: on delete-file, a local-prefixed url causes the named object to be
gone from the store and the record deleted with success; an external url
leaves the filesystem untouched while the record is still deleted.  The
filesystem is assumed healthy for the named key (its unlink does not
throw); throwing unlinks are treated under the error-handling analysis. -/
theorem deleteFile_local_vs_external (st : State) (id : Nat) (file : FileRec)
    (hfind : st.files.find? (fun f => f.id == id) = some file)
    (hnd : st.fs.present.Nodup)
    (hnf : st.fs.failing.contains file.url = false) :
    (strStartsWith file.url "uploads/" = true →
      file.url ∉ (deleteFile st id).1.fs.present ∧
      (deleteFile st id).1.files = st.files.filter (fun f => f.id != id) ∧
      (deleteFile st id).2 = ⟨200, "File deleted successfully"⟩) ∧
    (strStartsWith file.url "uploads/" = false →
      (deleteFile st id).1.fs = st.fs ∧
      (deleteFile st id).1.files = st.files.filter (fun f => f.id != id) ∧
      (deleteFile st id).2 = ⟨200, "File deleted successfully"⟩) := by
  constructor
  · intro hpre
    by_cases hex : existsSync st.fs file.url = true
    · have hunlink : unlinkSync st.fs file.url =
          .ok { st.fs with present := st.fs.present.erase file.url } := by
        unfold unlinkSync
        rw [hnf]
        rfl
      have h1 : deleteFile st id =
          ({ st with fs := { st.fs with present := st.fs.present.erase file.url },
                     files := st.files.filter (fun f => f.id != id) },
           ⟨200, "File deleted successfully"⟩) := by
        simp [deleteFile, hfind, hpre, hex, hunlink]
      rw [h1]
      exact ⟨hnd.not_mem_erase, rfl, rfl⟩
    · have hex' : existsSync st.fs file.url = false := by simpa using hex
      have h1 : deleteFile st id =
          ({ st with files := st.files.filter (fun f => f.id != id) },
           ⟨200, "File deleted successfully"⟩) := by
        simp [deleteFile, hfind, hpre, hex']
      rw [h1]
      refine ⟨?_, rfl, rfl⟩
      intro hmem
      unfold existsSync at hex'
      simp at hex'
      exact hex' hmem
  · intro hpre
    have h1 : deleteFile st id =
        ({ st with files := st.files.filter (fun f => f.id != id) },
         ⟨200, "File deleted successfully"⟩) := by
      simp [deleteFile, hfind, hpre]
    rw [h1]
    exact ⟨rfl, rfl, rfl⟩

theorem deleteFile_local_vs_external_witness :
    "uploads/a" ∉
        (deleteFile ⟨[], [⟨1, "A", "uploads/a", "M"⟩], ⟨["uploads/a"], []⟩, 2⟩ 1).1.fs.present ∧
    (deleteFile ⟨[], [⟨1, "B", "http://x", "M"⟩], ⟨["uploads/a"], []⟩, 2⟩ 1).1.fs =
      FS.mk ["uploads/a"] [] :=
  ⟨((deleteFile_local_vs_external ⟨[], [⟨1, "A", "uploads/a", "M"⟩], ⟨["uploads/a"], []⟩, 2⟩ 1
      ⟨1, "A", "uploads/a", "M"⟩ rfl (by simp) rfl).1 rfl).1,
   ((deleteFile_local_vs_external ⟨[], [⟨1, "B", "http://x", "M"⟩], ⟨["uploads/a"], []⟩, 2⟩ 1
      ⟨1, "B", "http://x", "M"⟩ rfl (by simp) rfl).2 rfl).1⟩

/-- C9: an upload request carrying a file payload but missing the title or
course field is answered 400 and creates no database record, yet the multer
middleware has already stored the binary before validation, so the uploaded
object is present in the local store afterwards. -/
theorem uploadFile_missing_fields_leaves_object (st : State) (now : Nat)
    (title? course? : Option String) (name : String)
    (hmiss : (strFalsy title? || strFalsy course?) = true) :
    uploadFile st now title? course? (some name) =
      ({ st with fs := writeObject st.fs ("uploads/" ++ multerFilename now name) },
       ⟨400, "Missing fields or file"⟩) ∧
    ("uploads/" ++ multerFilename now name) ∈
      (uploadFile st now title? course? (some name)).1.fs.present := by
  have h1 : uploadFile st now title? course? (some name) =
      ({ st with fs := writeObject st.fs ("uploads/" ++ multerFilename now name) },
       ⟨400, "Missing fields or file"⟩) := by
    simp [uploadFile, hmiss]
  refine ⟨h1, ?_⟩
  rw [h1]
  exact writeObject_mem _ _

theorem uploadFile_missing_fields_leaves_object_witness :
    uploadFile ⟨[], [], ⟨[], []⟩, 1⟩ 5 none (some "Math") (some "a.pdf") =
      ({ State.mk [] [] ⟨[], []⟩ 1 with
          fs := writeObject (FS.mk [] []) ("uploads/" ++ multerFilename 5 "a.pdf") },
       ⟨400, "Missing fields or file"⟩) ∧
    ("uploads/" ++ multerFilename 5 "a.pdf") ∈
      (uploadFile ⟨[], [], ⟨[], []⟩, 1⟩ 5 none (some "Math") (some "a.pdf")).1.fs.present :=
  uploadFile_missing_fields_leaves_object ⟨[], [], ⟨[], []⟩, 1⟩ 5 none (some "Math") "a.pdf" rfl

/-- C6: a successful add-file or upload-file leaves a Course record bearing
the requested course name (auto-created when absent) alongside a File record
carrying that course name. -/
theorem fileCreation_ensures_course (st : State) (title url course : String)
    (ht : title ≠ "") (hu : url ≠ "") (hc : course ≠ "") (now : Nat) (name : String) :
    ((addFile st (some title) (some url) (some course)).2.status = 200 ∧
      (∃ c ∈ (addFile st (some title) (some url) (some course)).1.courses, c.name = course) ∧
      ∃ f ∈ (addFile st (some title) (some url) (some course)).1.files, f.course = course) ∧
    ((uploadFile st now (some title) (some course) (some name)).2.status = 200 ∧
      (∃ c ∈ (uploadFile st now (some title) (some course) (some name)).1.courses, c.name = course) ∧
      ∃ f ∈ (uploadFile st now (some title) (some course) (some name)).1.files, f.course = course) := by
  have hfal : ∀ s : String, s ≠ "" → strFalsy (some s) = false := by
    intro s hs
    simp [strFalsy, hs]
  constructor
  · have h1 : addFile st (some title) (some url) (some course) =
        ({ ensureCourse st course with
            files := (ensureCourse st course).files ++
              [⟨(ensureCourse st course).nextId, title, url, course⟩],
            nextId := (ensureCourse st course).nextId + 1 },
         ⟨200, "File added successfully"⟩) := by
      simp [addFile, hfal _ ht, hfal _ hu, hfal _ hc]
    rw [h1]
    refine ⟨rfl, ensureCourse_mem st course, ?_⟩
    exact ⟨_, List.mem_append_right _ (List.mem_singleton.2 rfl), rfl⟩
  · have h2 : uploadFile st now (some title) (some course) (some name) =
        (let key := "uploads/" ++ multerFilename now name
         let stw := { st with fs := writeObject st.fs key }
         ({ ensureCourse stw course with
             files := (ensureCourse stw course).files ++
               [⟨(ensureCourse stw course).nextId, title, key, course⟩],
             nextId := (ensureCourse stw course).nextId + 1 },
          ⟨200, "File uploaded successfully"⟩)) := by
      simp [uploadFile, hfal _ ht, hfal _ hc]
    rw [h2]
    refine ⟨rfl, ensureCourse_mem _ course, ?_⟩
    exact ⟨_, List.mem_append_right _ (List.mem_singleton.2 rfl), rfl⟩

theorem fileCreation_ensures_course_witness :
    ((addFile ⟨[], [], ⟨[], []⟩, 1⟩ (some "T") (some "http://x") (some "M")).2.status = 200 ∧
      (∃ c ∈ (addFile ⟨[], [], ⟨[], []⟩, 1⟩ (some "T") (some "http://x") (some "M")).1.courses,
        c.name = "M") ∧
      ∃ f ∈ (addFile ⟨[], [], ⟨[], []⟩, 1⟩ (some "T") (some "http://x") (some "M")).1.files,
        f.course = "M") ∧
    ((uploadFile ⟨[], [], ⟨[], []⟩, 1⟩ 7 (some "T") (some "M") (some "n.pdf")).2.status = 200 ∧
      (∃ c ∈ (uploadFile ⟨[], [], ⟨[], []⟩, 1⟩ 7 (some "T") (some "M") (some "n.pdf")).1.courses,
        c.name = "M") ∧
      ∃ f ∈ (uploadFile ⟨[], [], ⟨[], []⟩, 1⟩ 7 (some "T") (some "M") (some "n.pdf")).1.files,
        f.course = "M") :=
  fileCreation_ensures_course ⟨[], [], ⟨[], []⟩, 1⟩ "T" "http://x" "M"
    (by decide) (by decide) (by decide) 7 "n.pdf"

/-! ### Decimal-string lemmas for the multer filename -/

/-- Value of a decimal digit string, most significant first. -/
def charsVal (l : List Char) : Nat :=
  l.foldl (fun a c => 10 * a + (c.toNat - 48)) 0

theorem charsVal_append (l : List Char) (c : Char) :
    charsVal (l ++ [c]) = 10 * charsVal l + (c.toNat - 48) := by
  unfold charsVal
  rw [List.foldl_append]
  rfl

theorem digitChar_val : ∀ d, d < 10 → (Nat.digitChar d).toNat - 48 = d := by
  decide

theorem charsVal_natChars (n : Nat) : charsVal (natChars n) = n := by
  induction n using Nat.strong_induction_on with
  | _ n ih =>
    by_cases h : n < 10
    · rw [natChars, dif_pos h]
      have := digitChar_val n h
      simp [charsVal, List.foldl, this]
    · rw [natChars, dif_neg h]
      rw [charsVal_append, ih (n / 10) (Nat.div_lt_self (by omega) (by omega)),
        digitChar_val (n % 10) (Nat.mod_lt _ (by omega))]
      omega

theorem natChars_inj {a b : Nat} (h : natChars a = natChars b) : a = b := by
  have := congrArg charsVal h
  rwa [charsVal_natChars, charsVal_natChars] at this

theorem digitChar_ne_dash : ∀ d, d < 10 → Nat.digitChar d ≠ '-' := by
  decide

theorem natChars_ne_dash (n : Nat) : ∀ c ∈ natChars n, c ≠ '-' := by
  induction n using Nat.strong_induction_on with
  | _ n ih =>
    by_cases h : n < 10
    · rw [natChars, dif_pos h]
      intro c hc
      rw [List.mem_singleton] at hc
      subst hc
      exact digitChar_ne_dash n h
    · rw [natChars, dif_neg h]
      intro c hc
      rcases List.mem_append.1 hc with h1 | h2
      · exact ih (n / 10) (Nat.div_lt_self (by omega) (by omega)) c h1
      · rw [List.mem_singleton] at h2
        subst h2
        exact digitChar_ne_dash _ (Nat.mod_lt _ (by omega))

theorem takeWhile_until_dash (l r : List Char) (h : ∀ c ∈ l, c ≠ '-') :
    (l ++ '-' :: r).takeWhile (fun c => c != '-') = l := by
  induction l with
  | nil => simp [List.takeWhile_cons]
  | cons a as ihl =>
    have ha : (a != '-') = true := by
      simpa using h a (List.mem_cons_self a as)
    rw [List.cons_append, List.takeWhile_cons, ha]
    simp only [if_true]
    rw [ihl (fun c hc => h c (List.mem_cons_of_mem a hc))]

theorem multerFilename_data (now : Nat) (s : String) :
    (multerFilename now s).data = natChars now ++ '-' :: (jsSquashWS s).data := by
  show (decimalString now ++ "-" ++ jsSquashWS s).data = _
  rw [String.data_append, String.data_append]
  rw [List.append_assoc]
  rfl

/-- Empty initial state used by the upload-collision counterexample. -/
def stC2 : State :=
  ⟨[], [], ⟨[], []⟩, 1⟩

/-- C2 counterexample: two successful uploads of `notes.pdf` during the same
`Date.now()` millisecond produce the same storage key, so after both requests
the store holds a single object — the second upload overwrote the first. -/
theorem upload_same_millisecond_overwrites :
    ((uploadFile stC2 1700000000000 (some "A") (some "Math") (some "notes.pdf")).2.status = 200) ∧
    ((uploadFile (uploadFile stC2 1700000000000 (some "A") (some "Math") (some "notes.pdf")).1
        1700000000000 (some "B") (some "Math") (some "notes.pdf")).2.status = 200) ∧
    (uploadFile (uploadFile stC2 1700000000000 (some "A") (some "Math") (some "notes.pdf")).1
        1700000000000 (some "B") (some "Math") (some "notes.pdf")).1.fs.present =
      ["uploads/" ++ multerFilename 1700000000000 "notes.pdf"] := by
  refine ⟨?_, ?_, ?_⟩ <;>
    simp [stC2, uploadFile, strFalsy, writeObject, ensureCourse]

/-- C2 amended: storage keys of two uploads are distinct whenever their
`Date.now()` values differ — the key starts with the decimal timestamp, whose
digits contain no dash, followed by the first dash of the key.  (Two uploads
inside the same millisecond with equal sanitized names collide.) -/
theorem multerFilename_distinct_times (t1 t2 : Nat) (n1 n2 : String) (h : t1 ≠ t2) :
    multerFilename t1 n1 ≠ multerFilename t2 n2 := by
  intro heq
  apply h
  have hd := congrArg String.data heq
  rw [multerFilename_data, multerFilename_data] at hd
  have h1 := takeWhile_until_dash (natChars t1) (jsSquashWS n1).data (natChars_ne_dash t1)
  have h2 := takeWhile_until_dash (natChars t2) (jsSquashWS n2).data (natChars_ne_dash t2)
  rw [hd] at h1
  exact natChars_inj (h1.symm.trans h2)

theorem multerFilename_distinct_times_witness :
    (1 : Nat) ≠ 2 ∧ multerFilename 1 "a.pdf" ≠ multerFilename 2 "a.pdf" :=
  ⟨by decide, multerFilename_distinct_times 1 2 "a.pdf" "a.pdf" (by decide)⟩

/-- Invariant of the cascade loop: when no unlink on the worklist throws,
the loop reports success, preserves the failing set, and every surviving
record was already there and shares no id with a worklist entry. -/
theorem deleteFilesLoop_spec (todo : List FileRec) :
    ∀ fs files, (∀ f ∈ todo, fs.failing.contains f.url = false) →
      (deleteFilesLoop fs files todo).2.2 = true ∧
      (deleteFilesLoop fs files todo).1.failing = fs.failing ∧
      ∀ g ∈ (deleteFilesLoop fs files todo).2.1,
        g ∈ files ∧ ∀ f ∈ todo, g.id ≠ f.id := by
  induction todo with
  | nil =>
    intro fs files _
    exact ⟨rfl, rfl, fun g hg => ⟨hg, by simp⟩⟩
  | cons f rest ih =>
    intro fs files hfail
    have hf : fs.failing.contains f.url = false := hfail f (List.mem_cons_self f rest)
    have hrest : ∀ f' ∈ rest, fs.failing.contains f'.url = false :=
      fun f' hf' => hfail f' (List.mem_cons_of_mem f hf')
    by_cases hpre : strStartsWith f.url "uploads/" = true
    · by_cases hex : existsSync fs f.url = true
      · have hunlink : unlinkSync fs f.url =
            .ok { fs with present := fs.present.erase f.url } := by
          unfold unlinkSync
          rw [hf]
          rfl
        have heq : deleteFilesLoop fs files (f :: rest) =
            deleteFilesLoop { fs with present := fs.present.erase f.url }
              (files.filter (fun g => g.id != f.id)) rest := by
          simp [deleteFilesLoop, hpre, hex, hunlink]
        rw [heq]
        obtain ⟨hok, hfl, hmem⟩ := ih { fs with present := fs.present.erase f.url }
          (files.filter (fun g => g.id != f.id)) hrest
        refine ⟨hok, hfl, ?_⟩
        intro g hg
        obtain ⟨hgf, hgrest⟩ := hmem g hg
        obtain ⟨hgmem, hgne⟩ := List.mem_filter.1 hgf
        refine ⟨hgmem, ?_⟩
        intro f' hf'
        rcases List.mem_cons.1 hf' with h1 | h2
        · subst h1
          simpa using hgne
        · exact hgrest f' h2
      · have hex' : existsSync fs f.url = false := by simpa using hex
        have heq : deleteFilesLoop fs files (f :: rest) =
            deleteFilesLoop fs (files.filter (fun g => g.id != f.id)) rest := by
          simp [deleteFilesLoop, hpre, hex']
        rw [heq]
        obtain ⟨hok, hfl, hmem⟩ := ih fs (files.filter (fun g => g.id != f.id)) hrest
        refine ⟨hok, hfl, ?_⟩
        intro g hg
        obtain ⟨hgf, hgrest⟩ := hmem g hg
        obtain ⟨hgmem, hgne⟩ := List.mem_filter.1 hgf
        refine ⟨hgmem, ?_⟩
        intro f' hf'
        rcases List.mem_cons.1 hf' with h1 | h2
        · subst h1
          simpa using hgne
        · exact hgrest f' h2
    · have hpre' : strStartsWith f.url "uploads/" = false := by simpa using hpre
      have heq : deleteFilesLoop fs files (f :: rest) =
          deleteFilesLoop fs (files.filter (fun g => g.id != f.id)) rest := by
        simp [deleteFilesLoop, hpre']
      rw [heq]
      obtain ⟨hok, hfl, hmem⟩ := ih fs (files.filter (fun g => g.id != f.id)) hrest
      refine ⟨hok, hfl, ?_⟩
      intro g hg
      obtain ⟨hgf, hgrest⟩ := hmem g hg
      obtain ⟨hgmem, hgne⟩ := List.mem_filter.1 hgf
      refine ⟨hgmem, ?_⟩
      intro f' hf'
      rcases List.mem_cons.1 hf' with h1 | h2
      · subst h1
        simpa using hgne
      · exact hgrest f' h2

/-- C4: when the Course id resolves and no unlink on the course's local
objects throws, delete-course deletes every File record carrying the
course's name, then the Course record, and a subsequent listing for that
course name is empty. -/
theorem deleteCourse_cascades (st : State) (cid : Nat) (course : Course)
    (hfind : st.courses.find? (fun c => c.id == cid) = some course)
    (hnofail : ∀ f ∈ st.files, f.course = course.name →
      st.fs.failing.contains f.url = false) :
    (deleteCourse st cid).2 = ⟨200, "Course and its files deleted successfully"⟩ ∧
    listFiles course.name (deleteCourse st cid).1.files = [] ∧
    (deleteCourse st cid).1.courses = st.courses.filter (fun c => c.id != cid) := by
  have htodo : ∀ f ∈ st.files.filter (fun f => f.course == course.name),
      st.fs.failing.contains f.url = false := by
    intro f hf
    obtain ⟨h1, h2⟩ := List.mem_filter.1 hf
    exact hnofail f h1 (by simpa using h2)
  obtain ⟨hok, hfl, hmem⟩ := deleteFilesLoop_spec _ st.fs st.files htodo
  rcases hres : deleteFilesLoop st.fs st.files
      (st.files.filter (fun f => f.course == course.name)) with ⟨fs', files', ok⟩
  rw [hres] at hok hmem
  simp only at hok hmem
  subst hok
  have hdc : deleteCourse st cid =
      ({ st with fs := fs', files := files',
                 courses := st.courses.filter (fun c => c.id != cid) },
       ⟨200, "Course and its files deleted successfully"⟩) := by
    simp [deleteCourse, hfind, hres]
  rw [hdc]
  refine ⟨rfl, ?_, rfl⟩
  simp only [listFiles, List.filter_eq_nil_iff]
  intro g hg hbeq
  obtain ⟨hgf, hgtodo⟩ := hmem g hg
  have hgname : g.course = course.name := by simpa using hbeq
  have hgmem : g ∈ st.files.filter (fun f => f.course == course.name) :=
    List.mem_filter.2 ⟨hgf, by simpa using hgname⟩
  exact hgtodo g hgmem rfl

theorem deleteCourse_cascades_witness :
    (deleteCourse ⟨[⟨1, "Math"⟩, ⟨2, "CS"⟩],
        [⟨3, "A", "uploads/a", "Math"⟩, ⟨4, "B", "http://x", "CS"⟩],
        ⟨["uploads/a"], []⟩, 5⟩ 1).2 =
      ⟨200, "Course and its files deleted successfully"⟩ ∧
    listFiles "Math" (deleteCourse ⟨[⟨1, "Math"⟩, ⟨2, "CS"⟩],
        [⟨3, "A", "uploads/a", "Math"⟩, ⟨4, "B", "http://x", "CS"⟩],
        ⟨["uploads/a"], []⟩, 5⟩ 1).1.files = [] ∧
    (deleteCourse ⟨[⟨1, "Math"⟩, ⟨2, "CS"⟩],
        [⟨3, "A", "uploads/a", "Math"⟩, ⟨4, "B", "http://x", "CS"⟩],
        ⟨["uploads/a"], []⟩, 5⟩ 1).1.courses =
      [Course.mk 1 "Math", Course.mk 2 "CS"].filter (fun c => c.id != 1) :=
  deleteCourse_cascades _ 1 ⟨1, "Math"⟩ rfl (by decide)

/-- State holding one local object whose unlink throws, used for the
error-handling analysis of the delete endpoints. -/
def stFail : State :=
  ⟨[⟨1, "Math"⟩], [⟨1, "Notes", "uploads/notes.pdf", "Math"⟩],
   ⟨["uploads/notes.pdf"], ["uploads/notes.pdf"]⟩, 2⟩

/-- C1 counterexample: when removing the physical object throws (here the
unlink of `uploads/notes.pdf` fails), delete-file answers 500 with the File
record still present, and the delete-course cascade answers 500 with the
Course record still present — the failure is not merely logged and the
record deletion does not complete. -/
theorem unlink_failure_not_swallowed :
    deleteFile stFail 1 = (stFail, ⟨500, "Error deleting file"⟩) ∧
    deleteCourse stFail 1 = (stFail, ⟨500, "Error deleting course"⟩) := by
  constructor <;> rfl

/-- C1 amended: only the missing-object case is tolerated.  A throwing
unlink during delete-file makes the handler answer 500 and keeps the whole
state — the File record is not deleted; a throwing unlink during the
delete-course cascade makes the handler answer 500 and keeps every Course
record. -/
theorem unlink_failure_aborts_deletion (st : State) (id cid : Nat)
    (file : FileRec) (course : Course)
    (hfind : st.files.find? (fun f => f.id == id) = some file)
    (hpre : strStartsWith file.url "uploads/" = true)
    (hex : existsSync st.fs file.url = true)
    (hfail : st.fs.failing.contains file.url = true)
    (hcfind : st.courses.find? (fun c => c.id == cid) = some course)
    (hloop : (deleteFilesLoop st.fs st.files
        (st.files.filter (fun f => f.course == course.name))).2.2 = false) :
    deleteFile st id = (st, ⟨500, "Error deleting file"⟩) ∧
    (deleteCourse st cid).2 = ⟨500, "Error deleting course"⟩ ∧
    (deleteCourse st cid).1.courses = st.courses := by
  have hunlink : unlinkSync st.fs file.url = .error () := by
    unfold unlinkSync
    rw [hfail]
    rfl
  constructor
  · simp [deleteFile, hfind, hpre, hex, hunlink]
  · rcases hres : deleteFilesLoop st.fs st.files
        (st.files.filter (fun f => f.course == course.name)) with ⟨fs', files', ok⟩
    rw [hres] at hloop
    simp only at hloop
    subst hloop
    have hdc : deleteCourse st cid =
        ({ st with fs := fs', files := files' }, ⟨500, "Error deleting course"⟩) := by
      simp [deleteCourse, hcfind, hres]
    rw [hdc]
    exact ⟨rfl, rfl⟩

theorem unlink_failure_aborts_deletion_witness :
    deleteFile stFail 1 = (stFail, ⟨500, "Error deleting file"⟩) ∧
    (deleteCourse stFail 1).2 = ⟨500, "Error deleting course"⟩ ∧
    (deleteCourse stFail 1).1.courses = stFail.courses :=
  unlink_failure_aborts_deletion stFail 1 1
    ⟨1, "Notes", "uploads/notes.pdf", "Math"⟩ ⟨1, "Math"⟩
    rfl rfl rfl rfl rfl (by decide)

/-- C10: the unlink decision at delete time depends only on the stored url
carrying the `uploads/` path marker, not on how the record was created:
add-file accepts any non-empty url without validating it as external, and
deleting the record it created with an `uploads/`-marked url removes the
named object from the upload directory. -/
theorem addFile_local_url_triggers_removal (st : State) (title u course : String)
    (c0 : Course)
    (ht : title ≠ "") (hu : u ≠ "") (hc : course ≠ "")
    (hpre : strStartsWith u "uploads/" = true)
    (hcourse : st.courses.find? (fun c => c.name == course) = some c0)
    (hfresh : ∀ f ∈ st.files, f.id ≠ st.nextId)
    (hnd : st.fs.present.Nodup)
    (hmem : u ∈ st.fs.present)
    (hnf : st.fs.failing.contains u = false) :
    (addFile st (some title) (some u) (some course)).2.status = 200 ∧
    u ∉ (deleteFile (addFile st (some title) (some u) (some course)).1
        st.nextId).1.fs.present := by
  have hfal : ∀ s : String, s ≠ "" → strFalsy (some s) = false := by
    intro s hs
    simp [strFalsy, hs]
  have hens : ensureCourse st course = st := by
    unfold ensureCourse
    rw [hcourse]
  have h1 : addFile st (some title) (some u) (some course) =
      ({ st with
         files := st.files ++ [FileRec.mk st.nextId title u course],
         nextId := st.nextId + 1 },
       ⟨200, "File added successfully"⟩) := by
    simp [addFile, hfal _ ht, hfal _ hu, hfal _ hc, hens]
  rw [h1]
  refine ⟨rfl, ?_⟩
  have hnone : st.files.find? (fun f => f.id == st.nextId) = none := by
    rw [List.find?_eq_none]
    intro f hf
    simpa using hfresh f hf
  have hfindL : List.find? (fun f => f.id == st.nextId)
      (st.files ++ [FileRec.mk st.nextId title u course]) =
      some (FileRec.mk st.nextId title u course) := by
    rw [List.find?_append, hnone]
    simp
  have hexL : existsSync st.fs u = true := by
    unfold existsSync
    simpa using hmem
  have hunlinkL : unlinkSync st.fs u =
      .ok { st.fs with present := st.fs.present.erase u } := by
    unfold unlinkSync
    rw [hnf]
    rfl
  have h2 : deleteFile
      { st with
        files := st.files ++ [FileRec.mk st.nextId title u course],
        nextId := st.nextId + 1 } st.nextId =
      ({ st with
         files := (st.files ++ [FileRec.mk st.nextId title u course]).filter
           (fun f => f.id != st.nextId),
         nextId := st.nextId + 1,
         fs := { st.fs with present := st.fs.present.erase u } },
       ⟨200, "File deleted successfully"⟩) := by
    simp [deleteFile, hfindL, hpre, hexL, hunlinkL]
  rw [h2]
  exact hnd.not_mem_erase

theorem addFile_local_url_triggers_removal_witness :
    (addFile ⟨[⟨1, "M"⟩], [], ⟨["uploads/x"], []⟩, 2⟩
        (some "T") (some "uploads/x") (some "M")).2.status = 200 ∧
    "uploads/x" ∉ (deleteFile (addFile ⟨[⟨1, "M"⟩], [], ⟨["uploads/x"], []⟩, 2⟩
        (some "T") (some "uploads/x") (some "M")).1 2).1.fs.present :=
  addFile_local_url_triggers_removal ⟨[⟨1, "M"⟩], [], ⟨["uploads/x"], []⟩, 2⟩
    "T" "uploads/x" "M" ⟨1, "M"⟩ (by decide) (by decide) (by decide) rfl rfl
    (by simp) (by simp) (by simp) rfl
